import Mathlib

/-!
# tesgo: a client for the Tesco grocery REST API

A shallow embedding of `tesgo.go` and a verification of its request building,
payload repair, status validation and session handling.

Conventions of the embedding.

* A Go `string` is a Lean `String` (text that is valid UTF-8); where Go works on
  the bytes of a string (query escaping, sorting of keys) the bytes are
  obtained with `utf8Bytes`.
* A Go `int` is an `Int`.
* A Go `error` is identified with the text its `Error()` method returns.
* A Go result pair `(*T, error)` is a pair `Option T × Option Error`, `none`
  standing for `nil`.
* The two collaborators that are not part of the package, the HTTP transport
  (`http.Get` followed by `ioutil.ReadAll`) and the decoder (`json.Unmarshal`),
  are parameters of every operation. Each call of one of them is recorded as
  an `Event`, so that what is sent and what is decoded can be observed.
-/

namespace Tesgo

/-! ## Library functions used by the package -/

/-- A Go error, identified with its message. -/
abbrev Error := String

/-- Go `errors.New`. -/
def errorsNew (text : String) : Error := text

/-- Go `strconv.Itoa`: the decimal rendering of an integer, with a leading
`-` for a negative one. -/
def strconvItoa (i : Int) : String :=
  match i with
  | Int.ofNat n => Nat.repr n
  | Int.negSucc n => "-" ++ Nat.repr (n + 1)

/-- Whether `old` starts at the head of `s`. -/
def hasPrefixAt : List Char → List Char → Bool
  | [], _ => true
  | _ :: _, [] => false
  | o :: os, c :: cs => o == c && hasPrefixAt os cs

/-- Go `strings.Count` for a non-empty `old`: the number of non-overlapping
instances of `old` in `s`, found left to right. `skip` is the number of
characters of the instance just found that are still to be passed over. -/
def countFrom (old : List Char) : Nat → List Char → Nat
  | _, [] => 0
  | skip + 1, _ :: cs => countFrom old skip cs
  | 0, c :: cs =>
    if hasPrefixAt old (c :: cs) then countFrom old (old.length - 1) cs + 1
    else countFrom old 0 cs

/-- Go `strings.Count`: for an empty `old` it is the number of characters of
`s` plus one. -/
def stringsCount (s old : List Char) : Nat :=
  if old = [] then s.length + 1 else countFrom old 0 s

/-- The replacement loop of Go `strings.Replace` for a non-empty `old`: the
first `n` non-overlapping instances of `old` in `s`, found left to right,
are replaced by `new`. `skip` is as in `countFrom`. -/
def replaceFrom (old new : List Char) : Nat → Nat → List Char → List Char
  | _, _, [] => []
  | n, skip + 1, _ :: cs => replaceFrom old new n skip cs
  | 0, 0, c :: cs => c :: cs
  | n + 1, 0, c :: cs =>
    if hasPrefixAt old (c :: cs) then new ++ replaceFrom old new n (old.length - 1) cs
    else c :: replaceFrom old new (n + 1) 0 cs

/-- The replacement loop of Go `strings.Replace` for an empty `old`: `new` is
inserted at the start of the string and after each character, `n` times in
all. -/
def insertFrom (new : List Char) : Nat → List Char → List Char
  | 0, s => s
  | _ + 1, [] => new
  | n + 1, c :: cs => new ++ c :: insertFrom new n cs

/-- Go `strings.Replace` on character lists: a copy of `s` with the first `n`
non-overlapping instances of `old` replaced by `new`; a negative `n` puts no
limit on the number of replacements. -/
def replaceChars (s old new : List Char) (n : Int) : List Char :=
  if old = new ∨ n = 0 then s
  else
    let m := stringsCount s old
    if m = 0 then s
    else
      let k := if n < 0 ∨ (m : Int) < n then m else n.toNat
      if old = [] then insertFrom new k s else replaceFrom old new k 0 s

/-- Go `strings.Replace`. -/
def stringsReplace (s old new : String) (n : Int) : String :=
  ⟨replaceChars s.data old.data new.data n⟩

/-- The UTF-8 encoding of a character, as a list of byte values. -/
def utf8Bytes (c : Char) : List Nat :=
  let v := c.toNat
  if v < 0x80 then [v]
  else if v < 0x800 then [0xC0 + v / 0x40, 0x80 + v % 0x40]
  else if v < 0x10000 then [0xE0 + v / 0x1000, 0x80 + v / 0x40 % 0x40, 0x80 + v % 0x40]
  else [0xF0 + v / 0x40000, 0x80 + v / 0x1000 % 0x40, 0x80 + v / 0x40 % 0x40, 0x80 + v % 0x40]

/-- The bytes of a Go string. -/
def stringBytes (s : String) : List Nat :=
  (s.data.map utf8Bytes).flatten

/-- Go `url.shouldEscape` in the mode `encodeQueryComponent`: every byte is
escaped but the ASCII letters and digits and `-`, `_`, `.`, `~`. -/
def shouldEscape (b : Nat) : Bool :=
  if (97 ≤ b ∧ b ≤ 122) ∨ (65 ≤ b ∧ b ≤ 90) ∨ (48 ≤ b ∧ b ≤ 57) then false
  else if b = 45 ∨ b = 95 ∨ b = 46 ∨ b = 126 then false
  else true

/-- The upper-case hexadecimal digit of a value below 16. -/
def upperhex (n : Nat) : Char :=
  if n < 10 then Char.ofNat (48 + n) else Char.ofNat (55 + n)

/-- How Go `url.escape` writes one byte in the mode `encodeQueryComponent`. -/
def escapeByte (b : Nat) : List Char :=
  if shouldEscape b then
    if b = 32 then ['+'] else ['%', upperhex (b / 16), upperhex (b % 16)]
  else [Char.ofNat b]

/-- Go `url.QueryEscape`. -/
def QueryEscape (s : String) : String :=
  ⟨((stringBytes s).map escapeByte).flatten⟩

/-- Byte-wise lexicographic order on Go strings, strict. -/
def bytesLt : List Nat → List Nat → Bool
  | _, [] => false
  | [], _ :: _ => true
  | a :: as, b :: bs => if a < b then true else if b < a then false else bytesLt as bs

/-- Insertion of a key into a sorted list of keys. -/
def insertKey (k : String) : List String → List String
  | [] => [k]
  | k' :: ks => if bytesLt (stringBytes k') (stringBytes k) then k' :: insertKey k ks else k :: k' :: ks

/-- Go `slices.Sort` on strings. -/
def sortKeys : List String → List String
  | [] => []
  | k :: ks => insertKey k (sortKeys ks)

/-- Go `url.Values`, a map from a key to the list of its values; the order of
the entries of the association list carries no meaning. -/
structure Values where
  entries : List (String × List String)

/-- Go `url.Values{}`, the empty map. -/
def Values.empty : Values := ⟨[]⟩

/-- Appending `value` to the values of `key` in an association list. -/
def addEntry : List (String × List String) → String → String → List (String × List String)
  | [], key, value => [(key, [value])]
  | (k, xs) :: rest, key, value =>
    if k = key then (k, xs ++ [value]) :: rest else (k, xs) :: addEntry rest key value

/-- Go `url.Values.Add`: `value` is appended to the values of `key`. -/
def Values.Add (v : Values) (key value : String) : Values :=
  ⟨addEntry v.entries key value⟩

/-- The values of a key in an association list. -/
def lookupEntry : List (String × List String) → String → List String
  | [], _ => []
  | (k, xs) :: rest, key => if k = key then xs else lookupEntry rest key

/-- The `key=value` pairs Go `url.Values.Encode` writes for one key. -/
def encodePairs (key : String) (xs : List String) : List String :=
  xs.map (fun x => QueryEscape key ++ "=" ++ QueryEscape x)

/-- Go `url.Values.Encode`: the keys are sorted, and the escaped `key=value`
pairs of each key in turn are joined with `&`. -/
def Values.Encode (v : Values) : String :=
  "&".intercalate
    ((sortKeys (v.entries.map Prod.fst)).map (fun k => encodePairs k (lookupEntry v.entries k))).flatten

/-! ## The data model -/

/-- The endpoint, `API_URL`. -/
def API_URL : String := "https://secure.techfortesco.com/groceryapi_ops/restservice.aspx"

/-- A Go `float32`, carried as its IEEE 754 bit pattern: the package stores
such values and never computes with them. -/
structure GoFloat32 where
  bits : Nat
deriving DecidableEq, Repr, Inhabited

structure Session where
  devKey : String
  appKey : String
  sessionKey : String
deriving DecidableEq, Repr, Inhabited

structure LoginResponse where
  StatusCode : Int
  StatusInfo : String
  BranchNumber : String
  CustomerId : String
  CustomerName : String
  SessionKey : String
  InAmmendOrderMode : String
  ChosenDeliverySlotInfo : String
  CustomerForename : String
deriving DecidableEq, Repr, Inhabited

structure Nutrient where
  NutrientName : String
  SampleDescription : String
  SampleSize : String
  ServingDescription : String
  ServingSize : String
deriving DecidableEq, Repr, Inhabited

structure Ingredient where
  Name : String
deriving DecidableEq, Repr, Inhabited

structure Product where
  BaseProductId : String
  EANBarcode : String
  CheaperAlternativeProductId : String
  CookingAndUsage : String
  ExtendedDescription : String
  HealthierAlternativeProductId : String
  ImagePath : String
  MaximumPurchaseQuantity : Int
  Name : String
  OfferPromotion : String
  OfferValidity : String
  OfferLabelImagePath : String
  Price : GoFloat32
  PriceDescription : String
  ProductId : String
  ProductType : String
  Rating : Int
  StorageInfo : String
  UnitPrice : GoFloat32
  UnitType : String
  RDA_Calories_Count : String
  RDA_Calories_Percent : String
  RDA_Sugar_Grammes : String
  RDA_Sugar_Percent : String
  RDA_Fat_Grammes : String
  RDA_Fat_Percent : String
  RDA_Saturates_Grammes : String
  RDA_Saturates_Percent : String
  RDA_Salt_Grammes : String
  RDA_Salt_Percent : String
  NutrientsCount : Int
  Nutrients : List Nutrient
  IngredientsCount : Int
  Ingredients : List Ingredient
deriving DecidableEq, Repr, Inhabited

structure SearchResponse where
  StatusCode : Int
  StatusInfo : String
  PageNumber : Int
  TotalPageCount : Int
  TotalProductCount : Int
  PageProductCount : Int
  Products : List Product
deriving DecidableEq, Repr, Inhabited

structure ChangeBasketResponse where
  StatusCode : Int
  StatusInfo : String
deriving DecidableEq, Repr, Inhabited

structure BasketLine where
  BasketLineErrorMessage : String
  BasketLineGuidePrice : String
  BasketLinePromoMessage : String
  BasketLineQuantity : String
  BaseProductId : String
  EANBarcode : String
  ImagePath : String
  MaximumPurchaseQuantity : Int
  Name : String
  OfferPromotion : String
  OfferValidity : String
  Price : GoFloat32
  PriceDescription : String
  ProductId : String
  ProductType : String
  StorageInfo : String
  UnitPrice : GoFloat32
  UnitType : String
  NoteForPersonalShopper : String
  SubstitutionNote : String
deriving DecidableEq, Repr, Inhabited

structure ListBasketResponse where
  StatusCode : Int
  StatusInfo : String
  BasketID : String
  InAmendOrderMode : String
  BasketGuideMultiBuySavings : String
  BasketGuidePrice : String
  BasketQuantity : String
  BasketTotalClubcardPoints : String
  BasketLines : List BasketLine
deriving DecidableEq, Repr, Inhabited

/-! ## The collaborators -/

/-- The HTTP transport: what `http.Get` answers for a URL, an error or a
response, and for a response what `ioutil.ReadAll` of its body gives, an error
or the body. -/
abbrev Transport := String → Except Error (Except Error String)

/-- The decoder `json.Unmarshal` at a response type: from the text, the
record as the call leaves it (starting from the zero value) and the error, if
any. -/
abbrev Decoder (R : Type) := String → R × Option Error

/-- A call of a collaborator. -/
inductive Event where
  | httpGet (url : String)
  | unmarshal (text : String)
deriving DecidableEq, Repr

/-- What a call of an operation leaves behind: the returned value, the
session after the call, and the calls of the collaborators, oldest first. -/
structure Outcome (α : Type) where
  ret : α
  session : Session
  events : List Event

/-! ## The package -/

def tescoError (code : Int) (info : String) : Error :=
  errorsNew (strconvItoa code ++ ": " ++ info)

def New (devKey appKey : String) : Session :=
  { devKey := devKey, appKey := appKey, sessionKey := "" }

def yesNo (cond : Bool) : String :=
  if cond then "Y" else "N"

/-- The URL `u.String()` of `u, _ := url.Parse(API_URL)` once `u.RawQuery` is
set: the endpoint has neither query nor fragment, so it is written back as it
is, followed by `?` and the query when the query is not empty. -/
def urlString (rawQuery : String) : String :=
  if rawQuery = "" then API_URL else API_URL ++ "?" ++ rawQuery

/-- The function `httpGetBody`, with the event of its `http.Get`. -/
def httpGetBody (net : Transport) (url : String) : (Option String × Option Error) × List Event :=
  match net url with
  | .error err => ((none, some err), [Event.httpGet url])
  | .ok r =>
    match r with
    | .error err => ((none, some err), [Event.httpGet url])
    | .ok b => ((some b, none), [Event.httpGet url])

/-- The call `json.Unmarshal(b, &resp)`, with its event. -/
def jsonUnmarshal {R : Type} (json : Decoder R) (b : String) : (R × Option Error) × List Event :=
  (json b, [Event.unmarshal b])

/-- The text `string(b)` of a byte slice that may be `nil`. -/
def bodyText (b : Option String) : String :=
  b.getD ""

/-- The URL `Login` requests: the parameters added to `v`, encoded into the
query of the endpoint. -/
def loginURL (s : Session) (email password : String) : String :=
  let v := Values.empty
  let v := v.Add "COMMAND" "LOGIN"
  let v := v.Add "DEVELOPERKEY" s.devKey
  let v := v.Add "APPLICATIONKEY" s.appKey
  let v := v.Add "EMAIL" email
  let v := v.Add "PASSWORD" password
  urlString v.Encode

/-- The status code as the server writes it for error 150. -/
def quotedStatus : String := "\"StatusCode\": \"150\""

/-- The status code for error 150 as the decoder needs it. -/
def plainStatus : String := "\"StatusCode\": 150"

/-- The repair `Login` applies to a payload: error 150 comes with its status
code as a string. -/
def repairQuotedStatus (b : String) : String :=
  stringsReplace b quotedStatus plainStatus 1

def Session.Login (net : Transport) (json : Decoder LoginResponse) (s : Session)
    (email password : String) : Outcome (Option Error) :=
  let u := loginURL s email password
  match httpGetBody net u with
  | ((_, some err), ev) => ⟨some err, s, ev⟩
  | ((b, none), ev) =>
    let b := repairQuotedStatus (bodyText b)
    match jsonUnmarshal json b with
    | ((_, some err), ev') => ⟨some err, s, ev ++ ev'⟩
    | ((resp, none), ev') =>
      if resp.StatusCode ≠ 0 then
        ⟨some (tescoError resp.StatusCode resp.StatusInfo), s, ev ++ ev'⟩
      else
        ⟨none, { s with sessionKey := resp.SessionKey }, ev ++ ev'⟩

/-- The URL `ProductSearch` requests. -/
def productSearchURL (s : Session) (search : String) (page : Int) (extended : Bool) : String :=
  let v := Values.empty
  let v := v.Add "COMMAND" "PRODUCTSEARCH"
  let v := v.Add "SESSIONKEY" s.sessionKey
  let v := v.Add "SEARCHTEXT" search
  let v := v.Add "PAGE" (strconvItoa page)
  let v := v.Add "EXTENDEDINFO" (yesNo extended)
  urlString v.Encode

/-- Two objects of an array with no comma between them. -/
def missingComma : String := "\x7d\r\n\x7b"

/-- Two objects of an array with the comma between them. -/
def withComma : String := "\x7d,\r\n\x7b"

/-- The repair `ProductSearch` applies to the payload of an extended search:
commas are missing in the arrays. -/
def repairMissingCommas (b : String) : String :=
  stringsReplace b missingComma withComma (-1)

/-- The text `ProductSearch` decodes, from the body received. -/
def searchText (extended : Bool) (b : String) : String :=
  if extended then repairMissingCommas b else b

def Session.ProductSearch (net : Transport) (json : Decoder SearchResponse) (s : Session)
    (search : String) (page : Int) (extended : Bool) :
    Outcome (Option SearchResponse × Option Error) :=
  if s.sessionKey = "" then
    ⟨(none, some (errorsNew "No session key, you must Login()")), s, []⟩
  else
    let u := productSearchURL s search page extended
    match httpGetBody net u with
    | ((_, some err), ev) => ⟨(none, some err), s, ev⟩
    | ((b, none), ev) =>
      let b := searchText extended (bodyText b)
      match jsonUnmarshal json b with
      | ((_, some err), ev') => ⟨(none, some (errorsNew (err ++ "\n" ++ b))), s, ev ++ ev'⟩
      | ((resp, none), ev') =>
        if resp.StatusCode ≠ 0 then
          ⟨(none, some (errorsNew (strconvItoa resp.StatusCode ++ ": " ++ resp.StatusInfo))), s,
            ev ++ ev'⟩
        else
          ⟨(some resp, none), s, ev ++ ev'⟩

/-- The URL `ChangeBasket` requests. -/
def changeBasketURL (s : Session) (productId : String) (quantity : Int) (substitute : Bool) :
    String :=
  let v := Values.empty
  let v := v.Add "COMMAND" "CHANGEBASKET"
  let v := v.Add "SESSIONKEY" s.sessionKey
  let v := v.Add "PRODUCTID" productId
  let v := v.Add "CHANGEQUANTITY" (strconvItoa quantity)
  let v := v.Add "SUBSTITUTION" (yesNo substitute)
  urlString v.Encode

def Session.ChangeBasket (net : Transport) (json : Decoder ChangeBasketResponse) (s : Session)
    (productId : String) (quantity : Int) (substitute : Bool) :
    Outcome (Option ChangeBasketResponse × Option Error) :=
  if s.sessionKey = "" then
    ⟨(none, some (errorsNew "No session key, you must Login()")), s, []⟩
  else
    let u := changeBasketURL s productId quantity substitute
    match httpGetBody net u with
    | ((_, some err), ev) => ⟨(none, some err), s, ev⟩
    | ((b, none), ev) =>
      let b := bodyText b
      match jsonUnmarshal json b with
      | ((_, some err), ev') => ⟨(none, some (errorsNew (err ++ "\n" ++ b))), s, ev ++ ev'⟩
      | ((resp, none), ev') =>
        if resp.StatusCode ≠ 0 then
          ⟨(none, some (tescoError resp.StatusCode resp.StatusInfo)), s, ev ++ ev'⟩
        else
          ⟨(some resp, none), s, ev ++ ev'⟩

/-- The URL `ListBasket` requests. -/
def listBasketURL (s : Session) (fast : Bool) : String :=
  let v := Values.empty
  let v := v.Add "COMMAND" "LISTBASKET"
  let v := v.Add "SESSIONKEY" s.sessionKey
  let v := v.Add "FAST" (yesNo fast)
  urlString v.Encode

def Session.ListBasket (net : Transport) (json : Decoder ListBasketResponse) (s : Session)
    (fast : Bool) : Outcome (Option ListBasketResponse × Option Error) :=
  let u := listBasketURL s fast
  match httpGetBody net u with
  | ((_, some err), ev) => ⟨(none, some err), s, ev⟩
  | ((b, none), ev) =>
    let b := bodyText b
    match jsonUnmarshal json b with
    | ((_, some err), ev') => ⟨(none, some (errorsNew (err ++ "\n" ++ b))), s, ev ++ ev'⟩
    | ((resp, none), ev') =>
      if resp.StatusCode ≠ 0 then
        ⟨(none, some (tescoError resp.StatusCode resp.StatusInfo)), s, ev ++ ev'⟩
      else
        ⟨(some resp, none), s, ev ++ ev'⟩

/-! ## Reading a decimal numeral -/

/-- The value of a decimal digit. -/
def digitValue (c : Char) : Nat :=
  c.toNat - 48

/-- The number a list of decimal digits denotes. -/
def decimalValue (cs : List Char) : Nat :=
  cs.foldl (fun acc c => 10 * acc + digitValue c) 0

/-- The integer a decimal numeral denotes, with or without a leading `-`. -/
def numeralValue (cs : List Char) : Int :=
  match cs with
  | '-' :: ds => -(decimalValue ds : Int)
  | ds => (decimalValue ds : Int)

/-! ## Collaborators for concrete runs -/

/-- A transport that answers every request with the same body. -/
def answering (body : String) : Transport :=
  fun _ => .ok (.ok body)

/-- A transport on which every request fails. -/
def unreachable (err : Error) : Transport :=
  fun _ => .error err

/-- A decoder that accepts one text, as the given record, and rejects every
other text with the given error. -/
def accepting {R : Type} [Inhabited R] (text : String) (resp : R) (err : Error) : Decoder R :=
  fun b => if b = text then (resp, none) else (default, some err)

/-- A decoder that rejects every text with the given error. -/
def rejecting {R : Type} [Inhabited R] (err : Error) : Decoder R :=
  fun _ => (default, some err)

/-- A login response with the given status and session key. -/
def loginResponse (code : Int) (info key : String) : LoginResponse :=
  { (default : LoginResponse) with StatusCode := code, StatusInfo := info, SessionKey := key }

/-- A search response with the given status. -/
def searchResponse (code : Int) (info : String) : SearchResponse :=
  { (default : SearchResponse) with StatusCode := code, StatusInfo := info }

/-- A basket listing with the given status. -/
def listBasketResponse (code : Int) (info : String) : ListBasketResponse :=
  { (default : ListBasketResponse) with StatusCode := code, StatusInfo := info }

/-! ## `strconv.Itoa` writes decimal numerals -/

theorem digitValue_digitChar (k : Nat) (h : k < 10) : digitValue (Nat.digitChar k) = k := by
  interval_cases k <;> rfl

theorem digitChar_isDigit (k : Nat) (h : k < 10) : (Nat.digitChar k).isDigit = true := by
  interval_cases k <;> rfl

theorem toDigitsCore_value (f : Nat) : ∀ (n : Nat) (ds : List Char), n < f →
    (Nat.toDigitsCore 10 f n ds).foldl (fun acc c => 10 * acc + digitValue c) 0
      = ds.foldl (fun acc c => 10 * acc + digitValue c) n := by
  induction f with
  | zero => intro n ds h; omega
  | succ f ih =>
    intro n ds h
    simp only [Nat.toDigitsCore]
    split
    · rename_i h0
      have hn : n % 10 = n := by omega
      have hv := digitValue_digitChar (n % 10) (Nat.mod_lt _ (by decide))
      rw [hn] at hv
      simp [List.foldl, hn, hv]
    · rename_i h0
      rw [ih (n / 10) _ (by omega)]
      simp only [List.foldl, digitValue_digitChar (n % 10) (Nat.mod_lt _ (by decide))]
      congr 1
      omega

theorem toDigitsCore_digits (f : Nat) : ∀ (n : Nat) (ds : List Char),
    (∀ c ∈ ds, c.isDigit = true) → ∀ c ∈ Nat.toDigitsCore 10 f n ds, c.isDigit = true := by
  induction f with
  | zero => intro n ds h; simpa [Nat.toDigitsCore] using h
  | succ f ih =>
    intro n ds h
    have hd : ∀ c ∈ Nat.digitChar (n % 10) :: ds, c.isDigit = true := by
      intro c hc
      rcases List.mem_cons.mp hc with hc | hc
      · rw [hc]; exact digitChar_isDigit _ (Nat.mod_lt _ (by decide))
      · exact h c hc
    simp only [Nat.toDigitsCore]
    split
    · exact hd
    · exact ih _ _ hd

theorem repr_value (n : Nat) : decimalValue (Nat.repr n).data = n := by
  simp only [Nat.repr, Nat.toDigits, List.asString, decimalValue]
  rw [toDigitsCore_value _ _ _ (Nat.lt_succ_self n)]
  rfl

theorem repr_digits (n : Nat) : ∀ c ∈ (Nat.repr n).data, c.isDigit = true := by
  simp only [Nat.repr, Nat.toDigits, List.asString]
  exact toDigitsCore_digits _ _ _ (by simp)

/-- The text `strconv.Itoa` writes is a decimal numeral of the integer:
decimal digits, after a `-` when the integer is negative, that denote it. -/
theorem strconvItoa_numeral (i : Int) :
    numeralValue (strconvItoa i).data = i ∧
    (0 ≤ i → ∀ c ∈ (strconvItoa i).data, c.isDigit = true) ∧
    (i < 0 → ∃ ds, (strconvItoa i).data = '-' :: ds ∧ ∀ c ∈ ds, c.isDigit = true) := by
  cases i with
  | ofNat n =>
    refine ⟨?_, fun _ => repr_digits n, fun h => absurd h (by simp)⟩
    have hd := repr_digits n
    simp only [strconvItoa]
    cases hdata : (Nat.repr n).data with
    | nil =>
      have := repr_value n
      rw [hdata] at this
      simp [numeralValue, ← this]
    | cons c cs =>
      have hc : c ≠ '-' := by
        intro hc
        have := hd c (by rw [hdata]; exact List.mem_cons_self _ _)
        rw [hc] at this
        exact absurd this (by decide)
      have hv := repr_value n
      rw [hdata] at hv
      unfold numeralValue
      split
      · rename_i heq
        simp only [List.cons.injEq] at heq
        exact absurd heq.1 hc
      · rw [hv]; rfl
  | negSucc n =>
    refine ⟨?_, fun h => absurd h (by simp [Int.negSucc_not_nonneg]), fun _ => ?_⟩
    · simp only [strconvItoa, String.data_append]
      show numeralValue ('-' :: (Nat.repr (n + 1)).data) = _
      simp only [numeralValue, repr_value]
      rfl
    · exact ⟨(Nat.repr (n + 1)).data, by simp [strconvItoa, String.data_append], repr_digits _⟩

/-! ## Facts about `strings.Replace` -/

theorem hasPrefixAt_iff (old s : List Char) : hasPrefixAt old s = true ↔ old <+: s := by
  induction old generalizing s with
  | nil => simp [hasPrefixAt]
  | cons o os ih =>
    cases s with
    | nil => simp [hasPrefixAt]
    | cons c cs => simp [hasPrefixAt, ih, List.cons_prefix_cons]

theorem countFrom_skip (old xs rest : List Char) :
    countFrom old xs.length (xs ++ rest) = countFrom old 0 rest := by
  induction xs with
  | nil => simp
  | cons x xs ih => simpa [countFrom] using ih

theorem replaceFrom_skip (old new xs rest : List Char) (n : Nat) :
    replaceFrom old new n xs.length (xs ++ rest) = replaceFrom old new n 0 rest := by
  induction xs with
  | nil => simp
  | cons x xs ih => simpa [replaceFrom] using ih

theorem replaceFrom_zero (old new s : List Char) : replaceFrom old new 0 0 s = s := by
  cases s <;> simp [replaceFrom]

theorem countFrom_found (o : Char) (os rest : List Char) :
    countFrom (o :: os) 0 (o :: os ++ rest) = countFrom (o :: os) 0 rest + 1 := by
  have h : hasPrefixAt (o :: os) (o :: (os ++ rest)) = true := by
    rw [hasPrefixAt_iff]; simp
  rw [List.cons_append, countFrom, if_pos h]
  simp only [List.length_cons, Nat.add_sub_cancel]
  rw [countFrom_skip]

theorem replaceFrom_found (o : Char) (os new rest : List Char) (n : Nat) :
    replaceFrom (o :: os) new (n + 1) 0 (o :: os ++ rest)
      = new ++ replaceFrom (o :: os) new n 0 rest := by
  have h : hasPrefixAt (o :: os) (o :: (os ++ rest)) = true := by
    rw [hasPrefixAt_iff]; simp
  rw [List.cons_append, replaceFrom, if_pos h]
  simp only [List.length_cons, Nat.add_sub_cancel]
  rw [replaceFrom_skip]

theorem countFrom_pass (old : List Char) (c : Char) (cs : List Char) (h : ¬ old <+: c :: cs) :
    countFrom old 0 (c :: cs) = countFrom old 0 cs := by
  have h' : hasPrefixAt old (c :: cs) = false := by
    rw [← Bool.not_eq_true, hasPrefixAt_iff]; exact h
  simp [countFrom, h']

theorem replaceFrom_pass (old new : List Char) (n : Nat) (c : Char) (cs : List Char)
    (h : ¬ old <+: c :: cs) :
    replaceFrom old new n 0 (c :: cs) = c :: replaceFrom old new n 0 cs := by
  have h' : hasPrefixAt old (c :: cs) = false := by
    rw [← Bool.not_eq_true, hasPrefixAt_iff]; exact h
  cases n with
  | zero => simp [replaceFrom_zero]
  | succ n => simp [replaceFrom, h']

/-- With no limit, `strings.Replace` makes as many replacements as
`strings.Count` finds instances. -/
theorem replaceChars_all (s old new : List Char) (hold : old ≠ []) (hne : old ≠ new) :
    replaceChars s old new (-1) = replaceFrom old new (countFrom old 0 s) 0 s := by
  unfold replaceChars stringsCount
  simp only [hne, hold, if_false, false_or]
  by_cases h0 : countFrom old 0 s = 0
  · simp [h0, replaceFrom_zero]
  · simp [h0]

theorem replaceAll_nil (old new : List Char) (hold : old ≠ []) (hne : old ≠ new) :
    replaceChars [] old new (-1) = [] := by
  rw [replaceChars_all _ _ _ hold hne]; simp [replaceFrom]

theorem replaceAll_pass (old new : List Char) (hold : old ≠ []) (hne : old ≠ new)
    (c : Char) (cs : List Char) (h : ¬ old <+: c :: cs) :
    replaceChars (c :: cs) old new (-1) = c :: replaceChars cs old new (-1) := by
  rw [replaceChars_all _ _ _ hold hne, replaceChars_all _ _ _ hold hne,
    countFrom_pass _ _ _ h, replaceFrom_pass _ _ _ _ _ h]

theorem replaceAll_found (old new : List Char) (hold : old ≠ []) (hne : old ≠ new)
    (rest : List Char) :
    replaceChars (old ++ rest) old new (-1) = new ++ replaceChars rest old new (-1) := by
  rw [replaceChars_all _ _ _ hold hne, replaceChars_all _ _ _ hold hne]
  cases old with
  | nil => exact absurd rfl hold
  | cons o os => rw [countFrom_found, replaceFrom_found]

theorem intercalate_cons_cons (sep x y : List Char) (ys : List (List Char)) :
    sep.intercalate (x :: y :: ys) = x ++ sep ++ sep.intercalate (y :: ys) := by
  simp [List.intercalate, List.intersperse]

theorem intercalate_singleton (sep x : List Char) : sep.intercalate [x] = x := by
  simp [List.intercalate, List.intersperse]

theorem head_prefix_intercalate (sep x : List Char) (xs : List (List Char)) :
    x <+: sep.intercalate (x :: xs) := by
  cases xs with
  | nil => rw [intercalate_singleton]
  | cons y ys =>
    rw [intercalate_cons_cons, List.append_assoc]
    exact List.prefix_append _ _

theorem intercalate_cons_head (sep : List Char) (c : Char) (x : List Char)
    (xs : List (List Char)) :
    sep.intercalate ((c :: x) :: xs) = c :: sep.intercalate (x :: xs) := by
  cases xs with
  | nil => simp [intercalate_singleton]
  | cons y ys => simp [intercalate_cons_cons]

theorem intercalate_nil_cons (sep : List Char) (xs : List (List Char)) (h : xs ≠ []) :
    sep.intercalate ([] :: xs) = sep ++ sep.intercalate xs := by
  cases xs with
  | nil => exact absurd rfl h
  | cons y ys => simp [intercalate_cons_cons]

/-- The three shapes of a text, seen from its head, for a pattern `old`. -/
theorem text_cases (old s : List Char) :
    s = [] ∨ (∃ rest, s = old ++ rest) ∨ (∃ c cs, s = c :: cs ∧ ¬ old <+: c :: cs) := by
  cases s with
  | nil => exact Or.inl rfl
  | cons c cs =>
    by_cases h : old <+: c :: cs
    · obtain ⟨rest, hrest⟩ := h
      exact Or.inr (Or.inl ⟨rest, hrest.symm⟩)
    · exact Or.inr (Or.inr ⟨c, cs, rfl, h⟩)

/-- Replacing every instance: the text splits at the instances of `old` into
segments free of `old`, and the result is the same segments joined by `new`. -/
theorem replaceAll_segments (old new : List Char) (hold : old ≠ []) (hne : old ≠ new)
    (s : List Char) :
    ∃ segs : List (List Char), segs ≠ [] ∧ (∀ seg ∈ segs, ¬ old <:+: seg) ∧
      s = old.intercalate segs ∧ replaceChars s old new (-1) = new.intercalate segs ∧
      segs.length = countFrom old 0 s + 1 := by
  generalize hn : s.length = n
  induction n using Nat.strong_induction_on generalizing s with
  | _ n ih =>
    rcases text_cases old s with h | ⟨rest, h⟩ | ⟨c, cs, h, hpre⟩
    · subst h
      refine ⟨[[]], by simp, ?_, ?_, ?_, ?_⟩
      · intro seg hseg
        simp only [List.mem_singleton] at hseg
        subst hseg
        intro hin
        exact hold (List.eq_nil_of_infix_nil hin)
      · simp [intercalate_singleton]
      · rw [replaceAll_nil _ _ hold hne]; simp [intercalate_singleton]
      · simp [countFrom]
    · subst h
      have hlen : rest.length < n := by
        rw [← hn, List.length_append]
        have : 0 < old.length := List.length_pos.mpr hold
        omega
      obtain ⟨segs, hne', hfree, hs, hr, hc⟩ := ih rest.length hlen rest rfl
      refine ⟨[] :: segs, by simp, ?_, ?_, ?_, ?_⟩
      · intro seg hseg
        rcases List.mem_cons.mp hseg with h | h
        · subst h
          intro hin
          exact hold (List.eq_nil_of_infix_nil hin)
        · exact hfree seg h
      · rw [intercalate_nil_cons _ _ hne', ← hs]
      · rw [replaceAll_found _ _ hold hne, intercalate_nil_cons _ _ hne', ← hr]
      · cases old with
        | nil => exact absurd rfl hold
        | cons o os => rw [countFrom_found, List.length_cons, hc]
    · subst h
      have hlen : cs.length < n := by rw [← hn]; simp
      obtain ⟨segs, hne', hfree, hs, hr, hc⟩ := ih cs.length hlen cs rfl
      cases segs with
      | nil => exact absurd rfl hne'
      | cons seg0 more =>
        refine ⟨(c :: seg0) :: more, by simp, ?_, ?_, ?_, ?_⟩
        · intro seg hseg
          rcases List.mem_cons.mp hseg with h | h
          · subst h
            intro hin
            rcases List.infix_cons_iff.mp hin with h1 | h1
            · apply hpre
              refine h1.trans ?_
              rw [hs, List.prefix_cons_inj]
              exact head_prefix_intercalate _ _ _
            · exact hfree seg0 (List.mem_cons_self _ _) h1
          · exact hfree seg (List.mem_cons_of_mem _ h)
        · rw [intercalate_cons_head, ← hs]
        · rw [replaceAll_pass _ _ hold hne _ _ hpre, intercalate_cons_head, ← hr]
        · rw [countFrom_pass _ _ _ hpre, ← hc]; simp

/-- Replacing every instance changes the length by the difference of the
lengths of `new` and `old`, once for each instance. -/
theorem replaceAll_length (old new : List Char) (hold : old ≠ []) (hne : old ≠ new)
    (s : List Char) :
    (replaceChars s old new (-1)).length + countFrom old 0 s * old.length
      = s.length + countFrom old 0 s * new.length := by
  generalize hn : s.length = n
  induction n using Nat.strong_induction_on generalizing s with
  | _ n ih =>
    subst hn
    rcases text_cases old s with h | ⟨rest, h⟩ | ⟨c, cs, h, hpre⟩
    · subst h
      rw [replaceAll_nil _ _ hold hne]; simp [countFrom]
    · subst h
      have hlen : rest.length < (old ++ rest).length := by
        rw [List.length_append]
        have : 0 < old.length := List.length_pos.mpr hold
        omega
      have h1 := ih rest.length hlen rest rfl
      rw [replaceAll_found _ _ hold hne]
      have hc : countFrom old 0 (old ++ rest) = countFrom old 0 rest + 1 := by
        cases old with
        | nil => exact absurd rfl hold
        | cons o os => rw [countFrom_found]
      rw [hc, List.length_append, List.length_append, Nat.add_mul, Nat.add_mul]
      omega
    · subst h
      have hlen : cs.length < (c :: cs).length := by simp
      have h1 := ih cs.length hlen cs rfl
      rw [replaceAll_pass _ _ hold hne _ _ hpre, countFrom_pass _ _ _ hpre]
      simp only [List.length_cons]
      omega

theorem countFrom_eq_zero (old s : List Char) (h : ¬ old <:+: s) : countFrom old 0 s = 0 := by
  induction s with
  | nil => simp [countFrom]
  | cons c cs ih =>
    have hpre : ¬ old <+: c :: cs := fun hp => h hp.isInfix
    rw [countFrom_pass _ _ _ hpre]
    exact ih (fun hin => h (List.infix_cons hin))

/-- A text free of `old` is left as it is by `strings.Replace`. -/
theorem replaceChars_free (s old new : List Char) (n : Int) (hold : old ≠ [])
    (h : ¬ old <:+: s) : replaceChars s old new n = s := by
  unfold replaceChars stringsCount
  simp [hold, countFrom_eq_zero old s h]

/-- An instance of `old` that starts inside `pre` lies within `pre` followed by
all of `old` but its last character. -/
theorem prefix_within (old pre post : List Char) (c : Char)
    (h : old <+: c :: pre ++ old ++ post) : old <+: c :: pre ++ old.dropLast := by
  have hold : old ≠ [] ∨ old = [] := (em (old = [])).symm
  rcases hold with hold | hold
  · have h2 : c :: pre ++ old.dropLast <+: c :: pre ++ old ++ post := by
      conv => rhs; rw [← List.dropLast_append_getLast hold]
      simp only [List.append_assoc]
      exact (List.prefix_append_right_inj _).mpr (List.prefix_append _ _)
    refine List.prefix_of_prefix_length_le h h2 ?_
    have : 0 < old.length := List.length_pos.mpr hold
    simp only [List.length_append, List.length_cons, List.length_dropLast]
    omega
  · subst hold; simp

theorem countFrom_first (old pre post : List Char) (hold : old ≠ [])
    (hfirst : ¬ old <:+: pre ++ old.dropLast) :
    countFrom old 0 (pre ++ old ++ post) = countFrom old 0 post + 1 := by
  induction pre with
  | nil =>
    cases old with
    | nil => exact absurd rfl hold
    | cons o os => simpa using countFrom_found o os post
  | cons c pre ih =>
    have hpre : ¬ old <+: c :: (pre ++ old ++ post) := by
      intro hp
      exact hfirst (prefix_within old pre post c (by simpa using hp)).isInfix
    have hrest : ¬ old <:+: pre ++ old.dropLast := fun hin =>
      hfirst (by simpa using List.infix_cons hin)
    simp only [List.cons_append] at *
    rw [countFrom_pass _ _ _ hpre]
    exact ih hrest

theorem replaceFrom_first (old new pre post : List Char) (n : Nat) (hold : old ≠ [])
    (hfirst : ¬ old <:+: pre ++ old.dropLast) :
    replaceFrom old new (n + 1) 0 (pre ++ old ++ post)
      = pre ++ new ++ replaceFrom old new n 0 post := by
  induction pre with
  | nil =>
    cases old with
    | nil => exact absurd rfl hold
    | cons o os => simpa using replaceFrom_found o os new post n
  | cons c pre ih =>
    have hpre : ¬ old <+: c :: (pre ++ old ++ post) := by
      intro hp
      exact hfirst (prefix_within old pre post c (by simpa using hp)).isInfix
    have hrest : ¬ old <:+: pre ++ old.dropLast := fun hin =>
      hfirst (by simpa using List.infix_cons hin)
    simp only [List.cons_append] at *
    rw [replaceFrom_pass _ _ _ _ _ hpre, ih hrest]

/-- With a limit of one, `strings.Replace` rewrites the first instance of
`old` and nothing else. -/
theorem replaceChars_one (old new pre post : List Char) (hold : old ≠ []) (hne : old ≠ new)
    (hfirst : ¬ old <:+: pre ++ old.dropLast) :
    replaceChars (pre ++ old ++ post) old new 1 = pre ++ new ++ post := by
  unfold replaceChars stringsCount
  have hc := countFrom_first old pre post hold hfirst
  simp only [hne, hold, if_false, false_or, hc]
  have h1 : ¬ ((1 : Int) < 0 ∨ (((countFrom old 0 post + 1 : Nat) : Int) < 1)) := by
    intro h
    rcases h with h | h
    · omega
    · omega
  simp only [one_ne_zero, if_false, Nat.succ_ne_zero, h1]
  rw [show Int.toNat 1 = 0 + 1 from rfl, replaceFrom_first _ _ _ _ _ hold hfirst,
    replaceFrom_zero]

/-! ## The missing-comma repair -/

theorem missingComma_data : missingComma.data = ['}', '\r', '\n', '{'] := rfl

theorem withComma_data : withComma.data = ['}', ',', '\r', '\n', '{'] := rfl

theorem commas_ne : missingComma.data ≠ withComma.data := by decide

theorem missingComma_ne_nil : missingComma.data ≠ [] := by decide

/-- A character other than `}` at the head of a repaired text was at the head
of the text, and what follows it is the repair of what followed it. -/
theorem repaired_head (x : Char) (hx : x ≠ '}') (t u : List Char)
    (h : replaceChars t missingComma.data withComma.data (-1) = x :: u) :
    ∃ t', t = x :: t' ∧ u = replaceChars t' missingComma.data withComma.data (-1) := by
  rcases text_cases missingComma.data t with h0 | ⟨rest, h0⟩ | ⟨c, cs, h0, hpre⟩
  · subst h0
    rw [replaceAll_nil _ _ missingComma_ne_nil commas_ne] at h
    cases h
  · subst h0
    rw [replaceAll_found _ _ missingComma_ne_nil commas_ne, withComma_data] at h
    simp only [List.cons_append, List.cons.injEq] at h
    exact absurd h.1.symm hx
  · subst h0
    rw [replaceAll_pass _ _ missingComma_ne_nil commas_ne _ _ hpre] at h
    simp only [List.cons.injEq] at h
    exact ⟨cs, by rw [h.1], h.2.symm⟩

/-- The repaired text holds no instance of the missing comma. -/
theorem repaired_free (s : List Char) :
    ¬ missingComma.data <:+: replaceChars s missingComma.data withComma.data (-1) := by
  generalize hn : s.length = n
  induction n using Nat.strong_induction_on generalizing s with
  | _ n ih =>
    subst hn
    rcases text_cases missingComma.data s with h | ⟨rest, h⟩ | ⟨c, cs, h, hpre⟩
    · subst h
      rw [replaceAll_nil _ _ missingComma_ne_nil commas_ne]
      intro hin
      exact missingComma_ne_nil (List.eq_nil_of_infix_nil hin)
    · subst h
      have hlen : rest.length < (missingComma.data ++ rest).length := by
        rw [List.length_append, missingComma_data]; simp
      have h1 := ih rest.length hlen rest rfl
      rw [replaceAll_found _ _ missingComma_ne_nil commas_ne, withComma_data]
      rw [missingComma_data] at h1 ⊢
      intro hin
      simp only [List.cons_append, List.nil_append, List.infix_cons_iff,
        List.cons_prefix_cons] at hin
      rcases hin with h | h | h | h | h | h
      · exact absurd h.2.1 (by decide)
      · exact absurd h.1 (by decide)
      · exact absurd h.1 (by decide)
      · exact absurd h.1 (by decide)
      · exact absurd h.1 (by decide)
      · exact h1 h
    · subst h
      have hlen : cs.length < (c :: cs).length := by simp
      have h1 := ih cs.length hlen cs rfl
      rw [replaceAll_pass _ _ missingComma_ne_nil commas_ne _ _ hpre]
      intro hin
      rcases List.infix_cons_iff.mp hin with h | h
      · apply hpre
        rw [missingComma_data] at h ⊢
        rw [List.cons_prefix_cons] at h
        obtain ⟨hc, t1, ht1⟩ := h
        obtain ⟨cs1, e1, ht2⟩ := repaired_head '\r' (by decide) cs _ ht1.symm
        obtain ⟨cs2, e2, ht3⟩ := repaired_head '\n' (by decide) cs1 _ ht2.symm
        obtain ⟨cs3, e3, _⟩ := repaired_head '{' (by decide) cs2 _ ht3.symm
        subst hc e1 e2 e3
        exact ⟨cs3, rfl⟩
      · exact h1 h

/-! ## The request URLs -/

theorem urlString_of_ne (q : String) (h : q.data ≠ []) : urlString q = API_URL ++ "?" ++ q := by
  unfold urlString
  rw [if_neg]
  intro hq
  apply h
  rw [hq]

theorem yesNo_escape (b : Bool) : QueryEscape (yesNo b) = yesNo b := by
  cases b <;> decide

theorem loginURL_eq (s : Session) (email password : String) :
    loginURL s email password = API_URL ++ "?APPLICATIONKEY=" ++ QueryEscape s.appKey ++
      "&COMMAND=LOGIN&DEVELOPERKEY=" ++ QueryEscape s.devKey ++ "&EMAIL=" ++ QueryEscape email ++
      "&PASSWORD=" ++ QueryEscape password := by
  have hk : sortKeys ["COMMAND", "DEVELOPERKEY", "APPLICATIONKEY", "EMAIL", "PASSWORD"]
      = ["APPLICATIONKEY", "COMMAND", "DEVELOPERKEY", "EMAIL", "PASSWORD"] := by decide
  have e1 : QueryEscape "APPLICATIONKEY" = "APPLICATIONKEY" := by decide
  have e2 : QueryEscape "COMMAND" = "COMMAND" := by decide
  have e3 : QueryEscape "DEVELOPERKEY" = "DEVELOPERKEY" := by decide
  have e4 : QueryEscape "EMAIL" = "EMAIL" := by decide
  have e5 : QueryEscape "PASSWORD" = "PASSWORD" := by decide
  have e6 : QueryEscape "LOGIN" = "LOGIN" := by decide
  simp only [loginURL, Values.Encode, Values.Add, Values.empty, addEntry, lookupEntry, encodePairs]
  simp [hk, e1, e2, e3, e4, e5, e6, String.intercalate, String.intercalate.go]
  rw [urlString_of_ne]
  · apply String.ext
    simp [String.data_append]
  · simp

theorem productSearchURL_eq (s : Session) (search : String) (page : Int) (extended : Bool) :
    productSearchURL s search page extended = API_URL ++ "?COMMAND=PRODUCTSEARCH&EXTENDEDINFO=" ++
      yesNo extended ++ "&PAGE=" ++ QueryEscape (strconvItoa page) ++ "&SEARCHTEXT=" ++
      QueryEscape search ++ "&SESSIONKEY=" ++ QueryEscape s.sessionKey := by
  have hk : sortKeys ["COMMAND", "SESSIONKEY", "SEARCHTEXT", "PAGE", "EXTENDEDINFO"]
      = ["COMMAND", "EXTENDEDINFO", "PAGE", "SEARCHTEXT", "SESSIONKEY"] := by decide
  have e1 : QueryEscape "COMMAND" = "COMMAND" := by decide
  have e2 : QueryEscape "EXTENDEDINFO" = "EXTENDEDINFO" := by decide
  have e3 : QueryEscape "PAGE" = "PAGE" := by decide
  have e4 : QueryEscape "SEARCHTEXT" = "SEARCHTEXT" := by decide
  have e5 : QueryEscape "SESSIONKEY" = "SESSIONKEY" := by decide
  have e6 : QueryEscape "PRODUCTSEARCH" = "PRODUCTSEARCH" := by decide
  simp only [productSearchURL, Values.Encode, Values.Add, Values.empty, addEntry, lookupEntry,
    encodePairs]
  simp [hk, e1, e2, e3, e4, e5, e6, yesNo_escape, String.intercalate, String.intercalate.go]
  rw [urlString_of_ne]
  · apply String.ext
    simp [String.data_append]
  · simp

theorem changeBasketURL_eq (s : Session) (productId : String) (quantity : Int)
    (substitute : Bool) :
    changeBasketURL s productId quantity substitute = API_URL ++ "?CHANGEQUANTITY=" ++
      QueryEscape (strconvItoa quantity) ++ "&COMMAND=CHANGEBASKET&PRODUCTID=" ++
      QueryEscape productId ++ "&SESSIONKEY=" ++ QueryEscape s.sessionKey ++ "&SUBSTITUTION=" ++
      yesNo substitute := by
  have hk : sortKeys ["COMMAND", "SESSIONKEY", "PRODUCTID", "CHANGEQUANTITY", "SUBSTITUTION"]
      = ["CHANGEQUANTITY", "COMMAND", "PRODUCTID", "SESSIONKEY", "SUBSTITUTION"] := by decide
  have e1 : QueryEscape "COMMAND" = "COMMAND" := by decide
  have e2 : QueryEscape "CHANGEQUANTITY" = "CHANGEQUANTITY" := by decide
  have e3 : QueryEscape "PRODUCTID" = "PRODUCTID" := by decide
  have e4 : QueryEscape "SUBSTITUTION" = "SUBSTITUTION" := by decide
  have e5 : QueryEscape "SESSIONKEY" = "SESSIONKEY" := by decide
  have e6 : QueryEscape "CHANGEBASKET" = "CHANGEBASKET" := by decide
  simp only [changeBasketURL, Values.Encode, Values.Add, Values.empty, addEntry, lookupEntry,
    encodePairs]
  simp [hk, e1, e2, e3, e4, e5, e6, yesNo_escape, String.intercalate, String.intercalate.go]
  rw [urlString_of_ne]
  · apply String.ext
    simp [String.data_append]
  · simp

theorem listBasketURL_eq (s : Session) (fast : Bool) :
    listBasketURL s fast = API_URL ++ "?COMMAND=LISTBASKET&FAST=" ++ yesNo fast ++
      "&SESSIONKEY=" ++ QueryEscape s.sessionKey := by
  have hk : sortKeys ["COMMAND", "SESSIONKEY", "FAST"] = ["COMMAND", "FAST", "SESSIONKEY"] := by
    decide
  have e1 : QueryEscape "COMMAND" = "COMMAND" := by decide
  have e2 : QueryEscape "FAST" = "FAST" := by decide
  have e5 : QueryEscape "SESSIONKEY" = "SESSIONKEY" := by decide
  have e6 : QueryEscape "LISTBASKET" = "LISTBASKET" := by decide
  simp only [listBasketURL, Values.Encode, Values.Add, Values.empty, addEntry, lookupEntry,
    encodePairs]
  simp [hk, e1, e2, e5, e6, yesNo_escape, String.intercalate, String.intercalate.go]
  rw [urlString_of_ne]
  · apply String.ext
    simp [String.data_append]
  · simp

/-! ## The operations -/

theorem httpGetBody_ok (net : Transport) (url p : String) (h : net url = .ok (.ok p)) :
    httpGetBody net url = ((some p, none), [Event.httpGet url]) := by
  simp [httpGetBody, h]

theorem httpGetBody_cases (net : Transport) (url : String) :
    (∃ err, httpGetBody net url = ((none, some err), [Event.httpGet url])) ∨
    (∃ p, net url = .ok (.ok p) ∧ httpGetBody net url = ((some p, none), [Event.httpGet url])) := by
  unfold httpGetBody
  cases h : net url with
  | error err => exact Or.inl ⟨err, rfl⟩
  | ok r =>
    cases r with
    | error err => exact Or.inl ⟨err, rfl⟩
    | ok b => exact Or.inr ⟨b, rfl, rfl⟩

/-- C1: for each of the four operations and every non-zero status code `S` and
info `I`, when the transport succeeds and the response decodes to a record
with that status code and info, the operation returns the error whose message
is the text `strconv.Itoa` writes for `S`, then `": "`, then `I`, and no
record; that text is a decimal numeral denoting `S`. -/
theorem server_error_message (net : Transport) (jl : Decoder LoginResponse)
    (js : Decoder SearchResponse) (jc : Decoder ChangeBasketResponse)
    (jb : Decoder ListBasketResponse) (s : Session) (email password search productId : String)
    (page quantity : Int) (extended substitute fast : Bool) (S : Int) (I : String)
    (hS : S ≠ 0) :
    (∀ p r, net (loginURL s email password) = .ok (.ok p) →
        jl (repairQuotedStatus p) = (r, none) → r.StatusCode = S → r.StatusInfo = I →
        (s.Login net jl email password).ret = some (strconvItoa S ++ ": " ++ I)) ∧
    (∀ p r, s.sessionKey ≠ "" → net (productSearchURL s search page extended) = .ok (.ok p) →
        js (searchText extended p) = (r, none) → r.StatusCode = S → r.StatusInfo = I →
        (s.ProductSearch net js search page extended).ret
          = (none, some (strconvItoa S ++ ": " ++ I))) ∧
    (∀ p r, s.sessionKey ≠ "" →
        net (changeBasketURL s productId quantity substitute) = .ok (.ok p) →
        jc p = (r, none) → r.StatusCode = S → r.StatusInfo = I →
        (s.ChangeBasket net jc productId quantity substitute).ret
          = (none, some (strconvItoa S ++ ": " ++ I))) ∧
    (∀ p r, net (listBasketURL s fast) = .ok (.ok p) →
        jb p = (r, none) → r.StatusCode = S → r.StatusInfo = I →
        (s.ListBasket net jb fast).ret = (none, some (strconvItoa S ++ ": " ++ I))) ∧
    numeralValue (strconvItoa S).data = S := by
  refine ⟨?_, ?_, ?_, ?_, (strconvItoa_numeral S).1⟩
  · intro p r hnet hdec hc hi
    subst hc hi
    simp [Session.Login, httpGetBody_ok _ _ _ hnet, jsonUnmarshal, bodyText, hdec, hS, tescoError,
      errorsNew]
  · intro p r hkey hnet hdec hc hi
    subst hc hi
    simp [Session.ProductSearch, hkey, httpGetBody_ok _ _ _ hnet, jsonUnmarshal, bodyText, hdec,
      hS, errorsNew]
  · intro p r hkey hnet hdec hc hi
    subst hc hi
    simp [Session.ChangeBasket, hkey, httpGetBody_ok _ _ _ hnet, jsonUnmarshal, bodyText, hdec,
      hS, tescoError, errorsNew]
  · intro p r hnet hdec hc hi
    subst hc hi
    simp [Session.ListBasket, httpGetBody_ok _ _ _ hnet, jsonUnmarshal, bodyText, hdec, hS,
      tescoError, errorsNew]

/-- A run of C1: the server answers every command with status 150 and the info
`no`, and each operation returns the error `150: no`. -/
theorem server_error_message_witness :
    ((New "d" "a").Login (answering "x") (accepting "x" (loginResponse 150 "no" "") "bad")
        "e" "p").ret = some "150: no" ∧
    (Session.ProductSearch (answering "x") (accepting "x" (searchResponse 150 "no") "bad")
        ⟨"d", "a", "T"⟩ "milk" 1 false).ret = (none, some "150: no") ∧
    (Session.ChangeBasket (answering "x") (accepting "x" ⟨150, "no"⟩ "bad")
        ⟨"d", "a", "T"⟩ "7" 2 true).ret = (none, some "150: no") ∧
    (Session.ListBasket (answering "x") (accepting "x" (listBasketResponse 150 "no") "bad")
        ⟨"d", "a", "T"⟩ true).ret = (none, some "150: no") ∧
    numeralValue (strconvItoa 150).data = 150 :=
  have h := server_error_message (answering "x")
    (accepting "x" (loginResponse 150 "no" "") "bad")
    (accepting "x" (searchResponse 150 "no") "bad") (accepting "x" ⟨150, "no"⟩ "bad")
    (accepting "x" (listBasketResponse 150 "no") "bad") ⟨"d", "a", "T"⟩ "e" "p" "milk" "7" 1 2
    false true true 150 "no" (by decide)
  ⟨(server_error_message (answering "x") (accepting "x" (loginResponse 150 "no" "") "bad")
      (accepting "x" (searchResponse 150 "no") "bad") (accepting "x" ⟨150, "no"⟩ "bad")
      (accepting "x" (listBasketResponse 150 "no") "bad") (New "d" "a") "e" "p" "milk" "7" 1 2
      false true true 150 "no" (by decide)).1 "x" (loginResponse 150 "no" "") rfl rfl rfl rfl,
    h.2.1 "x" (searchResponse 150 "no") (by decide) rfl rfl rfl rfl,
    h.2.2.1 "x" ⟨150, "no"⟩ (by decide) rfl rfl rfl rfl,
    h.2.2.2.1 "x" (listBasketResponse 150 "no") rfl rfl rfl rfl, h.2.2.2.2⟩

/-- C2: on a session whose token is empty, as is every session `New` returns,
`ProductSearch` and `ChangeBasket` return an error and no record, and call
neither the transport nor the decoder. -/
theorem no_token_no_request (net : Transport) (js : Decoder SearchResponse)
    (jc : Decoder ChangeBasketResponse) (s : Session) (search productId : String)
    (page quantity : Int) (extended substitute : Bool) (devKey appKey : String)
    (hkey : s.sessionKey = "") :
    (New devKey appKey).sessionKey = "" ∧
    (s.ProductSearch net js search page extended).ret
      = (none, some "No session key, you must Login()") ∧
    (s.ProductSearch net js search page extended).events = [] ∧
    (s.ChangeBasket net jc productId quantity substitute).ret
      = (none, some "No session key, you must Login()") ∧
    (s.ChangeBasket net jc productId quantity substitute).events = [] := by
  simp [New, Session.ProductSearch, Session.ChangeBasket, hkey, errorsNew]

/-- A run of C2 on a fresh session. -/
theorem no_token_no_request_witness :
    (New "d" "a").sessionKey = "" ∧
    ((New "d" "a").ProductSearch (answering "x") (rejecting "bad") "milk" 1 true).ret
      = (none, some "No session key, you must Login()") ∧
    ((New "d" "a").ProductSearch (answering "x") (rejecting "bad") "milk" 1 true).events = [] ∧
    ((New "d" "a").ChangeBasket (answering "x") (rejecting "bad") "7" 2 false).ret
      = (none, some "No session key, you must Login()") ∧
    ((New "d" "a").ChangeBasket (answering "x") (rejecting "bad") "7" 2 false).events = [] :=
  no_token_no_request (answering "x") (rejecting "bad") (rejecting "bad") (New "d" "a") "milk" "7"
    1 2 true false "d" "a" rfl

/-- C3: a `Login` whose transport succeeds and whose response decodes to status
0 and session key `T` returns no error and leaves the session with the token
`T`; a following `ProductSearch` or `ChangeBasket` then, when `T` is not
empty, passes the token check and requests a URL whose `SESSIONKEY` is `T`. -/
theorem login_sets_token (net net' : Transport) (jl : Decoder LoginResponse)
    (js : Decoder SearchResponse) (jc : Decoder ChangeBasketResponse) (s : Session)
    (email password p : String) (r : LoginResponse) (search productId : String)
    (page quantity : Int) (extended substitute : Bool)
    (hnet : net (loginURL s email password) = .ok (.ok p))
    (hdec : jl (repairQuotedStatus p) = (r, none)) (hcode : r.StatusCode = 0) :
    (s.Login net jl email password).ret = none ∧
    (s.Login net jl email password).session.sessionKey = r.SessionKey ∧
    (r.SessionKey ≠ "" →
      ((s.Login net jl email password).session.ProductSearch net' js search page extended).events.head?
        = some (Event.httpGet (API_URL ++ "?COMMAND=PRODUCTSEARCH&EXTENDEDINFO=" ++
            yesNo extended ++ "&PAGE=" ++ QueryEscape (strconvItoa page) ++ "&SEARCHTEXT=" ++
            QueryEscape search ++ "&SESSIONKEY=" ++ QueryEscape r.SessionKey)) ∧
      ((s.Login net jl email password).session.ChangeBasket net' jc productId quantity
          substitute).events.head?
        = some (Event.httpGet (API_URL ++ "?CHANGEQUANTITY=" ++
            QueryEscape (strconvItoa quantity) ++ "&COMMAND=CHANGEBASKET&PRODUCTID=" ++
            QueryEscape productId ++ "&SESSIONKEY=" ++ QueryEscape r.SessionKey ++
            "&SUBSTITUTION=" ++ yesNo substitute))) := by
  have hrun : s.Login net jl email password
      = ⟨none, { s with sessionKey := r.SessionKey }, [Event.httpGet (loginURL s email password),
          Event.unmarshal (repairQuotedStatus p)]⟩ := by
    simp [Session.Login, httpGetBody_ok _ _ _ hnet, jsonUnmarshal, bodyText, hdec, hcode]
  rw [hrun]
  refine ⟨rfl, rfl, ?_⟩
  intro hT
  constructor
  · rw [← productSearchURL_eq { s with sessionKey := r.SessionKey } search page extended]
    unfold Session.ProductSearch
    simp only [hT, if_false]
    rcases httpGetBody_cases net'
      (productSearchURL { s with sessionKey := r.SessionKey } search page extended)
      with ⟨err, h⟩ | ⟨q, _, h⟩
    · simp [h]
    · simp only [h, jsonUnmarshal]
      split <;> [skip; split] <;> simp
  · rw [← changeBasketURL_eq { s with sessionKey := r.SessionKey } productId quantity substitute]
    unfold Session.ChangeBasket
    simp only [hT, if_false]
    rcases httpGetBody_cases net'
      (changeBasketURL { s with sessionKey := r.SessionKey } productId quantity substitute)
      with ⟨err, h⟩ | ⟨q, _, h⟩
    · simp [h]
    · simp only [h, jsonUnmarshal]
      split <;> [skip; split] <;> simp

/-- A run of C3: the server grants the token `T`, and the search and the
basket change that follow send it. -/
theorem login_sets_token_witness :
    ((New "d" "a").Login (answering "x") (accepting "x" (loginResponse 0 "" "T") "bad")
      "e" "p").ret = none ∧
    ((New "d" "a").Login (answering "x") (accepting "x" (loginResponse 0 "" "T") "bad")
      "e" "p").session.sessionKey = "T" ∧
    (((New "d" "a").Login (answering "x") (accepting "x" (loginResponse 0 "" "T") "bad")
      "e" "p").session.ProductSearch (unreachable "down") (rejecting "bad") "milk" 1
        false).events.head?
      = some (Event.httpGet ("https://secure.techfortesco.com/groceryapi_ops/restservice.aspx" ++
          "?COMMAND=PRODUCTSEARCH&EXTENDEDINFO=N&PAGE=1&SEARCHTEXT=milk&SESSIONKEY=T")) ∧
    (((New "d" "a").Login (answering "x") (accepting "x" (loginResponse 0 "" "T") "bad")
      "e" "p").session.ChangeBasket (unreachable "down") (rejecting "bad") "7" (-2)
        true).events.head?
      = some (Event.httpGet ("https://secure.techfortesco.com/groceryapi_ops/restservice.aspx" ++
          "?CHANGEQUANTITY=-2&COMMAND=CHANGEBASKET&PRODUCTID=7&SESSIONKEY=T&SUBSTITUTION=Y")) :=
  have h := login_sets_token (answering "x") (unreachable "down")
    (accepting "x" (loginResponse 0 "" "T") "bad") (rejecting "bad") (rejecting "bad")
    (New "d" "a") "e" "p" "x" (loginResponse 0 "" "T") "milk" "7" 1 (-2) false true rfl rfl rfl
  ⟨h.1, h.2.1, (h.2.2 (by decide)).1, (h.2.2 (by decide)).2⟩

/-- C8: `ProductSearch`, `ChangeBasket` and `ListBasket` return either a record
and no error, or an error and no record; a returned record has status 0 and is
what the decoder made of the payload received (repaired, for an extended
search). -/
theorem record_or_error (net : Transport) (js : Decoder SearchResponse)
    (jc : Decoder ChangeBasketResponse) (jb : Decoder ListBasketResponse) (s : Session)
    (search productId : String) (page quantity : Int) (extended substitute fast : Bool) :
    ((∃ err, (s.ProductSearch net js search page extended).ret = (none, some err)) ∨
      (∃ r p, (s.ProductSearch net js search page extended).ret = (some r, none) ∧
        r.StatusCode = 0 ∧ net (productSearchURL s search page extended) = .ok (.ok p) ∧
        js (searchText extended p) = (r, none))) ∧
    ((∃ err, (s.ChangeBasket net jc productId quantity substitute).ret = (none, some err)) ∨
      (∃ r p, (s.ChangeBasket net jc productId quantity substitute).ret = (some r, none) ∧
        r.StatusCode = 0 ∧ net (changeBasketURL s productId quantity substitute) = .ok (.ok p) ∧
        jc p = (r, none))) ∧
    ((∃ err, (s.ListBasket net jb fast).ret = (none, some err)) ∨
      (∃ r p, (s.ListBasket net jb fast).ret = (some r, none) ∧
        r.StatusCode = 0 ∧ net (listBasketURL s fast) = .ok (.ok p) ∧ jb p = (r, none))) := by
  refine ⟨?_, ?_, ?_⟩
  · unfold Session.ProductSearch
    by_cases hkey : s.sessionKey = ""
    · simp [hkey]
    · simp only [hkey, if_false]
      rcases httpGetBody_cases net (productSearchURL s search page extended)
        with ⟨err, h⟩ | ⟨p, hp, h⟩
      · simp [h]
      · simp only [h, jsonUnmarshal, bodyText, Option.getD_some]
        rcases hd : js (searchText extended p) with ⟨r, _ | err⟩
        · by_cases hc : r.StatusCode = 0
          · right
            exact ⟨r, p, by simp [hc], hc, hp, hd⟩
          · simp [hc]
        · simp
  · unfold Session.ChangeBasket
    by_cases hkey : s.sessionKey = ""
    · simp [hkey]
    · simp only [hkey, if_false]
      rcases httpGetBody_cases net (changeBasketURL s productId quantity substitute)
        with ⟨err, h⟩ | ⟨p, hp, h⟩
      · simp [h]
      · simp only [h, jsonUnmarshal, bodyText, Option.getD_some]
        rcases hd : jc p with ⟨r, _ | err⟩
        · by_cases hc : r.StatusCode = 0
          · right
            exact ⟨r, p, by simp [hc], hc, hp, hd⟩
          · simp [hc]
        · simp
  · unfold Session.ListBasket
    rcases httpGetBody_cases net (listBasketURL s fast) with ⟨err, h⟩ | ⟨p, hp, h⟩
    · simp [h]
    · simp only [h, jsonUnmarshal, bodyText, Option.getD_some]
      rcases hd : jb p with ⟨r, _ | err⟩
      · by_cases hc : r.StatusCode = 0
        · right
          exact ⟨r, p, by simp [hc], hc, hp, hd⟩
        · simp [hc]
      · simp

/-- C9: `ProductSearch`, `ChangeBasket` and `ListBasket` leave the session as
it is; `Login` leaves the developer key and the application key as they are,
and leaves the whole session, token included, as it is unless it returns no
error. -/
theorem session_frame (net : Transport) (jl : Decoder LoginResponse)
    (js : Decoder SearchResponse) (jc : Decoder ChangeBasketResponse)
    (jb : Decoder ListBasketResponse) (s : Session) (email password search productId : String)
    (page quantity : Int) (extended substitute fast : Bool) :
    (s.ProductSearch net js search page extended).session = s ∧
    (s.ChangeBasket net jc productId quantity substitute).session = s ∧
    (s.ListBasket net jb fast).session = s ∧
    (s.Login net jl email password).session.devKey = s.devKey ∧
    (s.Login net jl email password).session.appKey = s.appKey ∧
    ((s.Login net jl email password).ret = none ∨
      (s.Login net jl email password).session = s) := by
  refine ⟨?_, ?_, ?_, ?_, ?_, ?_⟩
  · unfold Session.ProductSearch
    split
    · rfl
    · simp only [jsonUnmarshal]
      split <;> [skip; split] <;> [skip; skip; split] <;> rfl
  · unfold Session.ChangeBasket
    split
    · rfl
    · simp only [jsonUnmarshal]
      split <;> [skip; split] <;> [skip; skip; split] <;> rfl
  · unfold Session.ListBasket
    simp only [jsonUnmarshal]
    split <;> [skip; split] <;> [skip; skip; split] <;> rfl
  · unfold Session.Login
    simp only [jsonUnmarshal]
    split <;> [skip; split] <;> [skip; skip; split] <;> rfl
  · unfold Session.Login
    simp only [jsonUnmarshal]
    split <;> [skip; split] <;> [skip; skip; split] <;> rfl
  · unfold Session.Login
    simp only [jsonUnmarshal]
    split <;> [skip; split] <;> [skip; skip; split] <;> simp

/-! ## What is sent and what is decoded -/

theorem login_events (net : Transport) (jl : Decoder LoginResponse) (s : Session)
    (email password p : String) (hnet : net (loginURL s email password) = .ok (.ok p)) :
    (s.Login net jl email password).events
      = [Event.httpGet (loginURL s email password), Event.unmarshal (repairQuotedStatus p)] := by
  unfold Session.Login
  simp only [httpGetBody_ok _ _ _ hnet, jsonUnmarshal, bodyText, Option.getD_some]
  rcases jl (repairQuotedStatus p) with ⟨r, _ | err⟩
  · by_cases hc : r.StatusCode = 0 <;> simp [hc]
  · simp

theorem productSearch_events (net : Transport) (js : Decoder SearchResponse) (s : Session)
    (search : String) (page : Int) (extended : Bool) (p : String) (hkey : s.sessionKey ≠ "")
    (hnet : net (productSearchURL s search page extended) = .ok (.ok p)) :
    (s.ProductSearch net js search page extended).events
      = [Event.httpGet (productSearchURL s search page extended),
          Event.unmarshal (searchText extended p)] := by
  unfold Session.ProductSearch
  simp only [hkey, if_false, httpGetBody_ok _ _ _ hnet, jsonUnmarshal, bodyText,
    Option.getD_some]
  rcases js (searchText extended p) with ⟨r, _ | err⟩
  · by_cases hc : r.StatusCode = 0 <;> simp [hc]
  · simp

theorem repairQuotedStatus_first (pre post : String)
    (hfirst : ¬ quotedStatus.data <:+: pre.data ++ quotedStatus.data.dropLast) :
    repairQuotedStatus (pre ++ quotedStatus ++ post) = pre ++ plainStatus ++ post := by
  apply String.ext
  simp only [repairQuotedStatus, stringsReplace, String.data_append]
  exact replaceChars_one _ _ _ _ (by decide) (by decide) hfirst

theorem repairQuotedStatus_free (p : String) (h : ¬ quotedStatus.data <:+: p.data) :
    repairQuotedStatus p = p := by
  apply String.ext
  simp only [repairQuotedStatus, stringsReplace]
  exact replaceChars_free _ _ _ _ (by decide) h

/-- C6: when the payload of `Login` is `pre`, the quoted status 150, `post`,
and the quoted status does not occur earlier, the decoder is given `pre`, the
plain status 150, `post`, and a record with status 150 decoded from it makes
`Login` return the server error `150: ` followed by the info; a payload that
does not hold the quoted status is given to the decoder as it is. -/
theorem quoted_status_repair (net : Transport) (jl : Decoder LoginResponse) (s : Session)
    (email password pre post p : String)
    (hfirst : ¬ quotedStatus.data <:+: pre.data ++ quotedStatus.data.dropLast)
    (hfree : ¬ quotedStatus.data <:+: p.data) :
    (net (loginURL s email password) = .ok (.ok (pre ++ quotedStatus ++ post)) →
      (s.Login net jl email password).events
        = [Event.httpGet (loginURL s email password),
            Event.unmarshal (pre ++ plainStatus ++ post)] ∧
      ∀ r, jl (pre ++ plainStatus ++ post) = (r, none) → r.StatusCode = 150 →
        (s.Login net jl email password).ret = some ("150: " ++ r.StatusInfo)) ∧
    (net (loginURL s email password) = .ok (.ok p) →
      (s.Login net jl email password).events
        = [Event.httpGet (loginURL s email password), Event.unmarshal p]) := by
  constructor
  · intro hnet
    constructor
    · rw [login_events _ _ _ _ _ _ hnet, repairQuotedStatus_first _ _ hfirst]
    · intro r hdec hcode
      have hdec' : jl (repairQuotedStatus (pre ++ quotedStatus ++ post)) = (r, none) := by
        rw [repairQuotedStatus_first _ _ hfirst]; exact hdec
      have h150 : strconvItoa 150 = "150" := by decide
      simp [Session.Login, httpGetBody_ok _ _ _ hnet, jsonUnmarshal, bodyText, hdec', hcode,
        tescoError, errorsNew, h150]
  · intro hnet
    rw [login_events _ _ _ _ _ _ hnet, repairQuotedStatus_free _ hfree]

/-- A run of C6: the payload `{"StatusCode": "150", "StatusInfo": "no"}` reaches
the decoder with its status unquoted and `Login` returns `150: no`; the payload
`ok` reaches the decoder as it is. -/
theorem quoted_status_repair_witness :
    ((New "d" "a").Login
        (answering ("\x7b" ++ quotedStatus ++ ", \"StatusInfo\": \"no\"\x7d"))
        (accepting "\x7b\"StatusCode\": 150, \"StatusInfo\": \"no\"\x7d"
          (loginResponse 150 "no" "") "bad") "e" "p").events
      = [Event.httpGet (loginURL (New "d" "a") "e" "p"),
          Event.unmarshal ("\x7b" ++ plainStatus ++ ", \"StatusInfo\": \"no\"\x7d")] ∧
    ((New "d" "a").Login
        (answering ("\x7b" ++ quotedStatus ++ ", \"StatusInfo\": \"no\"\x7d"))
        (accepting "\x7b\"StatusCode\": 150, \"StatusInfo\": \"no\"\x7d"
          (loginResponse 150 "no" "") "bad") "e" "p").ret = some "150: no" ∧
    ((New "d" "a").Login (answering "ok") (rejecting "bad") "e" "p").events
      = [Event.httpGet (loginURL (New "d" "a") "e" "p"), Event.unmarshal "ok"] :=
  have h := (quoted_status_repair
    (answering ("\x7b" ++ quotedStatus ++ ", \"StatusInfo\": \"no\"\x7d"))
    (accepting "\x7b\"StatusCode\": 150, \"StatusInfo\": \"no\"\x7d"
      (loginResponse 150 "no" "") "bad") (New "d" "a") "e" "p" "\x7b"
    ", \"StatusInfo\": \"no\"\x7d" "ok" (by decide) (by decide)).1 rfl
  ⟨h.1, h.2 (loginResponse 150 "no" "") (by decide) rfl,
    (quoted_status_repair (answering "ok") (rejecting "bad") (New "d" "a") "e" "p" "\x7b"
      ", \"StatusInfo\": \"no\"\x7d" "ok" (by decide) (by decide)).2 rfl⟩

theorem repairMissingCommas_data (p : String) :
    (repairMissingCommas p).data = replaceChars p.data missingComma.data withComma.data (-1) :=
  rfl

/-- C5: when `ProductSearch` has received the payload `p`, the decoder is
given `p` itself when `extended` is false; when `extended` is true, `p` splits
at the instances of `}` CR LF `{` into segments free of that sequence, the
decoder is given the same segments joined by `},` CR LF `{`, there is one
segment more than `strings.Count` counts instances, and the text decoded is
longer than `p` by the number of instances. -/
theorem missing_comma_repair (net : Transport) (js : Decoder SearchResponse) (s : Session)
    (search : String) (page : Int) (extended : Bool) (p : String) (hkey : s.sessionKey ≠ "")
    (hnet : net (productSearchURL s search page extended) = .ok (.ok p)) :
    (extended = false →
      (s.ProductSearch net js search page extended).events
        = [Event.httpGet (productSearchURL s search page extended), Event.unmarshal p]) ∧
    (extended = true →
      ∃ segs : List (List Char), (∀ seg ∈ segs, ¬ missingComma.data <:+: seg) ∧
        p.data = missingComma.data.intercalate segs ∧
        (s.ProductSearch net js search page extended).events
          = [Event.httpGet (productSearchURL s search page extended),
              Event.unmarshal ⟨withComma.data.intercalate segs⟩] ∧
        segs.length = stringsCount p.data missingComma.data + 1 ∧
        (withComma.data.intercalate segs).length
          = p.data.length + stringsCount p.data missingComma.data) := by
  rw [productSearch_events _ _ _ _ _ _ _ hkey hnet]
  constructor
  · intro he
    simp [searchText, he]
  · intro he
    obtain ⟨segs, _, hfree, hs, hr, hc⟩ :=
      replaceAll_segments missingComma.data withComma.data missingComma_ne_nil commas_ne p.data
    have hcount : stringsCount p.data missingComma.data = countFrom missingComma.data 0 p.data := by
      simp [stringsCount, missingComma_ne_nil]
    refine ⟨segs, hfree, hs, ?_, ?_, ?_⟩
    · simp only [searchText, he, if_true]
      rw [← hr]
      rfl
    · rw [hcount, hc]
    · have hl := replaceAll_length missingComma.data withComma.data missingComma_ne_nil commas_ne
        p.data
      rw [← hr, hcount]
      rw [missingComma_data, withComma_data] at hl ⊢
      simp only [List.length_cons, List.length_nil] at hl
      omega

/-- A run of C5 on the payload `[{}` CR LF `{}]`: an extended search hands the
decoder a text of one character more, split at the one missing comma, which is
`[{},` CR LF `{}]`. -/
theorem missing_comma_repair_witness :
    (Session.ProductSearch (answering "[\x7b\x7d\r\n\x7b\x7d]") (rejecting "bad")
        ⟨"d", "a", "T"⟩ "milk" 1 true).events
      = [Event.httpGet (productSearchURL ⟨"d", "a", "T"⟩ "milk" 1 true),
          Event.unmarshal "[\x7b\x7d,\r\n\x7b\x7d]"] ∧
    (Session.ProductSearch (answering "[\x7b\x7d\r\n\x7b\x7d]") (rejecting "bad")
        ⟨"d", "a", "T"⟩ "milk" 1 false).events
      = [Event.httpGet (productSearchURL ⟨"d", "a", "T"⟩ "milk" 1 false),
          Event.unmarshal "[\x7b\x7d\r\n\x7b\x7d]"] ∧
    ∃ segs : List (List Char), (∀ seg ∈ segs, ¬ missingComma.data <:+: seg) ∧
      "[\x7b\x7d\r\n\x7b\x7d]".data = missingComma.data.intercalate segs ∧
      (Session.ProductSearch (answering "[\x7b\x7d\r\n\x7b\x7d]") (rejecting "bad")
          ⟨"d", "a", "T"⟩ "milk" 1 true).events
        = [Event.httpGet (productSearchURL ⟨"d", "a", "T"⟩ "milk" 1 true),
            Event.unmarshal ⟨withComma.data.intercalate segs⟩] ∧
      segs.length = stringsCount "[\x7b\x7d\r\n\x7b\x7d]".data missingComma.data + 1 ∧
      (withComma.data.intercalate segs).length
        = "[\x7b\x7d\r\n\x7b\x7d]".data.length
          + stringsCount "[\x7b\x7d\r\n\x7b\x7d]".data missingComma.data :=
  ⟨by decide, (missing_comma_repair (answering "[\x7b\x7d\r\n\x7b\x7d]") (rejecting "bad")
      ⟨"d", "a", "T"⟩ "milk" 1 false "[\x7b\x7d\r\n\x7b\x7d]" (by decide) rfl).1 rfl,
    (missing_comma_repair (answering "[\x7b\x7d\r\n\x7b\x7d]") (rejecting "bad")
      ⟨"d", "a", "T"⟩ "milk" 1 true "[\x7b\x7d\r\n\x7b\x7d]" (by decide) rfl).2 rfl⟩

/-- C10: the text the missing-comma repair produces holds no `}` CR LF `{`,
and repairing it again leaves it as it is. -/
theorem repair_idempotent (p : String) :
    ¬ missingComma.data <:+: (repairMissingCommas p).data ∧
    repairMissingCommas (repairMissingCommas p) = repairMissingCommas p := by
  have hfree : ¬ missingComma.data <:+: (repairMissingCommas p).data := by
    rw [repairMissingCommas_data]
    exact repaired_free p.data
  refine ⟨hfree, ?_⟩
  apply String.ext
  rw [repairMissingCommas_data]
  exact replaceChars_free _ _ _ _ missingComma_ne_nil hfree

theorem login_first_event (net : Transport) (jl : Decoder LoginResponse) (s : Session)
    (email password : String) :
    (s.Login net jl email password).events.head?
      = some (Event.httpGet (loginURL s email password)) := by
  unfold Session.Login
  rcases httpGetBody_cases net (loginURL s email password) with ⟨err, h⟩ | ⟨q, _, h⟩
  · simp [h]
  · simp only [h, jsonUnmarshal]
    split <;> [skip; split] <;> simp

theorem productSearch_first_event (net : Transport) (js : Decoder SearchResponse) (s : Session)
    (search : String) (page : Int) (extended : Bool) (hkey : s.sessionKey ≠ "") :
    (s.ProductSearch net js search page extended).events.head?
      = some (Event.httpGet (productSearchURL s search page extended)) := by
  unfold Session.ProductSearch
  simp only [hkey, if_false]
  rcases httpGetBody_cases net (productSearchURL s search page extended) with ⟨err, h⟩ | ⟨q, _, h⟩
  · simp [h]
  · simp only [h, jsonUnmarshal]
    split <;> [skip; split] <;> simp

theorem changeBasket_first_event (net : Transport) (jc : Decoder ChangeBasketResponse)
    (s : Session) (productId : String) (quantity : Int) (substitute : Bool)
    (hkey : s.sessionKey ≠ "") :
    (s.ChangeBasket net jc productId quantity substitute).events.head?
      = some (Event.httpGet (changeBasketURL s productId quantity substitute)) := by
  unfold Session.ChangeBasket
  simp only [hkey, if_false]
  rcases httpGetBody_cases net (changeBasketURL s productId quantity substitute)
    with ⟨err, h⟩ | ⟨q, _, h⟩
  · simp [h]
  · simp only [h, jsonUnmarshal]
    split <;> [skip; split] <;> simp

theorem listBasket_first_event (net : Transport) (jb : Decoder ListBasketResponse) (s : Session)
    (fast : Bool) :
    (s.ListBasket net jb fast).events.head? = some (Event.httpGet (listBasketURL s fast)) := by
  unfold Session.ListBasket
  rcases httpGetBody_cases net (listBasketURL s fast) with ⟨err, h⟩ | ⟨q, _, h⟩
  · simp [h]
  · simp only [h, jsonUnmarshal]
    split <;> [skip; split] <;> simp

/-- C7, as the code has it: the URL an operation requests is the endpoint, `?`,
and the parameters of the operation, each once, as `key=value` pairs with the
value query-escaped, joined by `&` in the ascending order of the keys (the
order `url.Values.Encode` writes them in), not in the order of the `Add`
calls. -/
theorem query_sorted_by_key (net : Transport) (jl : Decoder LoginResponse)
    (js : Decoder SearchResponse) (jc : Decoder ChangeBasketResponse)
    (jb : Decoder ListBasketResponse) (s : Session) (email password search productId : String)
    (page quantity : Int) (extended substitute fast : Bool) :
    (s.Login net jl email password).events.head?
      = some (Event.httpGet (API_URL ++ "?APPLICATIONKEY=" ++ QueryEscape s.appKey ++
          "&COMMAND=LOGIN&DEVELOPERKEY=" ++ QueryEscape s.devKey ++ "&EMAIL=" ++
          QueryEscape email ++ "&PASSWORD=" ++ QueryEscape password)) ∧
    (s.sessionKey ≠ "" →
      (s.ProductSearch net js search page extended).events.head?
        = some (Event.httpGet (API_URL ++ "?COMMAND=PRODUCTSEARCH&EXTENDEDINFO=" ++
            yesNo extended ++ "&PAGE=" ++ QueryEscape (strconvItoa page) ++ "&SEARCHTEXT=" ++
            QueryEscape search ++ "&SESSIONKEY=" ++ QueryEscape s.sessionKey))) ∧
    (s.sessionKey ≠ "" →
      (s.ChangeBasket net jc productId quantity substitute).events.head?
        = some (Event.httpGet (API_URL ++ "?CHANGEQUANTITY=" ++
            QueryEscape (strconvItoa quantity) ++ "&COMMAND=CHANGEBASKET&PRODUCTID=" ++
            QueryEscape productId ++ "&SESSIONKEY=" ++ QueryEscape s.sessionKey ++
            "&SUBSTITUTION=" ++ yesNo substitute))) ∧
    (s.ListBasket net jb fast).events.head?
      = some (Event.httpGet (API_URL ++ "?COMMAND=LISTBASKET&FAST=" ++ yesNo fast ++
          "&SESSIONKEY=" ++ QueryEscape s.sessionKey)) := by
  refine ⟨?_, ?_, ?_, ?_⟩
  · rw [login_first_event, loginURL_eq]
  · intro hkey
    rw [productSearch_first_event _ _ _ _ _ _ hkey, productSearchURL_eq]
  · intro hkey
    rw [changeBasket_first_event _ _ _ _ _ _ hkey, changeBasketURL_eq]
  · rw [listBasket_first_event, listBasketURL_eq]

/-- A run of the amended C7, with values that need escaping. -/
theorem query_sorted_by_key_witness :
    (Session.Login (unreachable "down") (rejecting "bad") ⟨"d k", "a", "T&"⟩ "e@x" "p").events.head?
      = some (Event.httpGet ("https://secure.techfortesco.com/groceryapi_ops/restservice.aspx" ++
          "?APPLICATIONKEY=a&COMMAND=LOGIN&DEVELOPERKEY=d+k&EMAIL=e%40x&PASSWORD=p")) ∧
    (Session.ProductSearch (unreachable "down") (rejecting "bad") ⟨"d k", "a", "T&"⟩ "milk" 2
        true).events.head?
      = some (Event.httpGet ("https://secure.techfortesco.com/groceryapi_ops/restservice.aspx" ++
          "?COMMAND=PRODUCTSEARCH&EXTENDEDINFO=Y&PAGE=2&SEARCHTEXT=milk&SESSIONKEY=T%26")) ∧
    (Session.ChangeBasket (unreachable "down") (rejecting "bad") ⟨"d k", "a", "T&"⟩ "7" (-3)
        false).events.head?
      = some (Event.httpGet ("https://secure.techfortesco.com/groceryapi_ops/restservice.aspx" ++
          "?CHANGEQUANTITY=-3&COMMAND=CHANGEBASKET&PRODUCTID=7&SESSIONKEY=T%26&SUBSTITUTION=N")) ∧
    (Session.ListBasket (unreachable "down") (rejecting "bad") ⟨"d k", "a", "T&"⟩ true).events.head?
      = some (Event.httpGet ("https://secure.techfortesco.com/groceryapi_ops/restservice.aspx" ++
          "?COMMAND=LISTBASKET&FAST=Y&SESSIONKEY=T%26")) :=
  have h := query_sorted_by_key (unreachable "down") (rejecting "bad") (rejecting "bad")
    (rejecting "bad") (rejecting "bad") ⟨"d k", "a", "T&"⟩ "e@x" "p" "milk" "7" 2 (-3) true false
    true
  ⟨h.1, h.2.1 (by decide), h.2.2.1 (by decide), h.2.2.2⟩

/-- C7 fails as stated: `Login` adds `COMMAND`, `DEVELOPERKEY`, `APPLICATIONKEY`,
`EMAIL`, `PASSWORD` in this order, and the URL it requests lists
`APPLICATIONKEY` first; it is not the URL with the parameters in the order
they were added. -/
theorem query_order_counterexample :
    ((New "d" "a").Login (answering "x") (rejecting "bad") "e" "p").events.head?
      = some (Event.httpGet ("https://secure.techfortesco.com/groceryapi_ops/restservice.aspx" ++
          "?APPLICATIONKEY=a&COMMAND=LOGIN&DEVELOPERKEY=d&EMAIL=e&PASSWORD=p")) ∧
    ((New "d" "a").Login (answering "x") (rejecting "bad") "e" "p").events.head?
      ≠ some (Event.httpGet ("https://secure.techfortesco.com/groceryapi_ops/restservice.aspx" ++
          "?COMMAND=LOGIN&DEVELOPERKEY=d&APPLICATIONKEY=a&EMAIL=e&PASSWORD=p")) := by
  decide

theorem suffix_infix (a b : String) : b.data <:+: (a ++ "\n" ++ b).data := by
  simp only [String.data_append]
  exact (List.suffix_append _ _).isInfix

/-- On a payload the decoder rejects, `Login` returns the error of the decoder
as it is. -/
theorem login_decode_failure (net : Transport) (jl : Decoder LoginResponse) (s : Session)
    (email password p : String) (r : LoginResponse) (err : Error)
    (hnet : net (loginURL s email password) = .ok (.ok p))
    (hdec : jl (repairQuotedStatus p) = (r, some err)) :
    (s.Login net jl email password).ret = some err := by
  simp [Session.Login, httpGetBody_ok _ _ _ hnet, jsonUnmarshal, bodyText, hdec]

/-- C4, as the code has it: when the decoder rejects the payload of
`ProductSearch`, `ChangeBasket` or `ListBasket`, the operation returns no
record and the error whose message is the message of the decoder, a line
break, and the text that was given to the decoder, so that the message
contains that text. The text is the payload itself for `ChangeBasket`, for
`ListBasket` and for a `ProductSearch` that is not extended or whose payload
holds no `}` CR LF `{`; for any other extended `ProductSearch` it is the
payload with the commas put in. -/
theorem decode_failure_message (net : Transport) (js : Decoder SearchResponse)
    (jc : Decoder ChangeBasketResponse) (jb : Decoder ListBasketResponse) (s : Session)
    (search productId : String) (page quantity : Int) (extended substitute fast : Bool)
    (p : String) (err : Error) :
    (s.sessionKey ≠ "" → net (productSearchURL s search page extended) = .ok (.ok p) →
      (js (searchText extended p)).2 = some err →
      (s.ProductSearch net js search page extended).ret
        = (none, some (err ++ "\n" ++ searchText extended p)) ∧
      (searchText extended p).data <:+: (err ++ "\n" ++ searchText extended p).data ∧
      (extended = false ∨ ¬ missingComma.data <:+: p.data → searchText extended p = p)) ∧
    (s.sessionKey ≠ "" → net (changeBasketURL s productId quantity substitute) = .ok (.ok p) →
      (jc p).2 = some err →
      (s.ChangeBasket net jc productId quantity substitute).ret
        = (none, some (err ++ "\n" ++ p)) ∧
      p.data <:+: (err ++ "\n" ++ p).data) ∧
    (net (listBasketURL s fast) = .ok (.ok p) → (jb p).2 = some err →
      (s.ListBasket net jb fast).ret = (none, some (err ++ "\n" ++ p)) ∧
      p.data <:+: (err ++ "\n" ++ p).data) := by
  refine ⟨?_, ?_, ?_⟩
  · intro hkey hnet hdec
    refine ⟨?_, suffix_infix _ _, ?_⟩
    · unfold Session.ProductSearch
      simp only [hkey, if_false, httpGetBody_ok _ _ _ hnet, jsonUnmarshal, bodyText,
        Option.getD_some]
      rcases hd : js (searchText extended p) with ⟨r, e⟩
      rw [hd] at hdec
      simp only at hdec
      subst hdec
      simp [errorsNew]
    · intro h
      rcases h with h | h
      · simp [searchText, h]
      · unfold searchText
        split
        · apply String.ext
          rw [repairMissingCommas_data]
          exact replaceChars_free _ _ _ _ missingComma_ne_nil h
        · rfl
  · intro hkey hnet hdec
    refine ⟨?_, suffix_infix _ _⟩
    unfold Session.ChangeBasket
    simp only [hkey, if_false, httpGetBody_ok _ _ _ hnet, jsonUnmarshal, bodyText,
      Option.getD_some]
    rcases hd : jc p with ⟨r, e⟩
    rw [hd] at hdec
    simp only at hdec
    subst hdec
    simp [errorsNew]
  · intro hnet hdec
    refine ⟨?_, suffix_infix _ _⟩
    unfold Session.ListBasket
    simp only [httpGetBody_ok _ _ _ hnet, jsonUnmarshal, bodyText, Option.getD_some]
    rcases hd : jb p with ⟨r, e⟩
    rw [hd] at hdec
    simp only at hdec
    subst hdec
    simp [errorsNew]

/-- A run of the amended C4 on the payload `<html>`, which `json.Unmarshal`
rejects at its first character. -/
theorem decode_failure_message_witness :
    (Session.ProductSearch (answering "<html>")
        (rejecting "invalid character '<' looking for beginning of value")
        ⟨"d", "a", "T"⟩ "milk" 1 true).ret
      = (none, some "invalid character '<' looking for beginning of value\n<html>") ∧
    (Session.ChangeBasket (answering "<html>")
        (rejecting "invalid character '<' looking for beginning of value")
        ⟨"d", "a", "T"⟩ "7" 2 false).ret
      = (none, some "invalid character '<' looking for beginning of value\n<html>") ∧
    (Session.ListBasket (answering "<html>")
        (rejecting "invalid character '<' looking for beginning of value")
        ⟨"d", "a", "T"⟩ false).ret
      = (none, some "invalid character '<' looking for beginning of value\n<html>") :=
  have h := decode_failure_message (answering "<html>")
    (rejecting "invalid character '<' looking for beginning of value")
    (rejecting "invalid character '<' looking for beginning of value")
    (rejecting "invalid character '<' looking for beginning of value")
    ⟨"d", "a", "T"⟩ "milk" "7" 1 2 true false false "<html>"
    "invalid character '<' looking for beginning of value"
  ⟨(h.1 (by decide) rfl rfl).1, (h.2.1 (by decide) rfl rfl).1, (h.2.2 rfl rfl).1⟩

/-- C4 fails as stated: an extended `ProductSearch` that receives `[{}` CR LF
`{}`, an array that is not closed, decodes `[{},` CR LF `{}`; `json.Unmarshal`
rejects it as the end of the input comes too soon, and the error returned
holds the repaired text, in which the payload does not occur. -/
theorem decode_failure_message_counterexample :
    (Session.ProductSearch (answering "[\x7b\x7d\r\n\x7b\x7d")
        (rejecting "unexpected end of JSON input") ⟨"d", "a", "T"⟩ "milk" 1 true).ret
      = (none, some "unexpected end of JSON input\n[\x7b\x7d,\r\n\x7b\x7d") ∧
    ¬ "[\x7b\x7d\r\n\x7b\x7d".data
      <:+: "unexpected end of JSON input\n[\x7b\x7d,\r\n\x7b\x7d".data := by
  decide

/-- `Login` on the payload `<html>`, which `json.Unmarshal` rejects at its first
character: the error returned is the error of the decoder alone, and the
payload does not occur in it. -/
theorem login_decode_failure_run :
    (Session.Login (answering "<html>")
        (rejecting "invalid character '<' looking for beginning of value")
        (New "d" "a") "e" "p").ret
      = some "invalid character '<' looking for beginning of value" ∧
    ¬ "<html>".data <:+: "invalid character '<' looking for beginning of value".data := by
  decide

end Tesgo
